import Mathlib

/-
Verification development for the lark task runner (golint-fixer/lark).

The definitions below are a shallow embedding of the Go package
luamodules/lark/core (file core.go), of the Lua module src/lark.lua, and of
the Go command entry points (the main package file defining RunTask).  The
execgroup package is not part of the source tree; the few facts about it that
are needed (the per-group recorded-error slot) are modelled from the spec and
marked as such in their doc comments.

Conventions used throughout:
  - Go maps and Lua tables keyed by strings are modelled as association lists
    with unique keys; map assignment replaces an existing binding.
  - A Lua value is modelled by the small inductive LuaVal covering the cases
    the embedded functions inspect (nil, string, boolean, number, table).
  - state.ArgError, which raises a Lua error and aborts the call, is modelled
    by an error result (Except / Option of an error value); the Go map
    mutations performed before the ArgError persist, so functions that mutate
    the group registry return the updated registry together with the error.
-/

namespace Lark

/-- The fragment of Lua values inspected by the embedded functions. -/
inductive LuaVal where
  | lnil
  | lstr (s : String)
  | lbool (b : Bool)
  | lnum (n : Int)
  | ltable
  deriving Repr, DecidableEq

/-- The name gopher-lua reports for a value type (used in ArgError messages). -/
def luaTypeName : LuaVal → String
  | .lnil => "nil"
  | .lstr _ => "string"
  | .lbool _ => "boolean"
  | .lnum _ => "number"
  | .ltable => "table"

/-- Lookup in a string-keyed map (Go map indexing / Lua table read). -/
def getK {β : Type} : List (String × β) → String → Option β
  | [], _ => none
  | (k0, v0) :: rest, k => if k0 = k then some v0 else getK rest k

/-- Assignment in a string-keyed map (Go map assignment / Lua table write):
replaces an existing binding, otherwise appends a new one. -/
def setK {β : Type} : List (String × β) → String → β → List (String × β)
  | [], k, v => [(k, v)]
  | (k0, v0) :: rest, k, v =>
    if k0 = k then (k, v) :: rest else (k0, v0) :: setK rest k v

theorem getK_setK_same {β : Type} (m : List (String × β)) (k : String) (v : β) :
    getK (setK m k v) k = some v := by
  induction m with
  | nil => simp [getK, setK]
  | cons hd tl ih =>
    obtain ⟨k0, v0⟩ := hd
    by_cases h : k0 = k
    · simp [getK, setK, h]
    · simp [getK, setK, h, ih]

theorem getK_setK_other {β : Type} (m : List (String × β)) (k k2 : String) (v : β)
    (hne : k ≠ k2) : getK (setK m k v) k2 = getK m k2 := by
  induction m with
  | nil => simp [getK, setK, hne]
  | cons hd tl ih =>
    obtain ⟨k0, v0⟩ := hd
    by_cases h : k0 = k
    · subst h
      simp [getK, setK, hne]
    · simp only [setK, if_neg h, getK]
      by_cases h2 : k0 = k2
      · simp [h2]
      · simp [h2, ih]

/-! ## Task registry — src/lark.lua

`lark.tasks` is a Lua table mapping task names to bodies and
`lark.default_task` remembers the first registered name (nil until a task is
registered).  Bodies are opaque to the registry; they are a type parameter. -/

/-- The task-registration state of src/lark.lua: the `lark.tasks` table and
the `lark.default_task` variable. -/
structure TaskReg (β : Type) where
  tasks : List (String × β)
  default_task : Option String
  deriving Repr, DecidableEq

/-- Embedding of `lark.task` (src/lark.lua lines 9-22), after the table call shape has been
unpacked into `name` and `fn`: if no default task is set, the registered name
becomes the default; then `lark.tasks[name] = fn` (a plain Lua table write,
replacing any existing binding). -/
def larkTask {β : Type} (r : TaskReg β) (name : String) (fn : β) : TaskReg β :=
  { default_task :=
      match r.default_task with
      | none => some name
      | some d => some d,
    tasks := setK r.tasks name fn }

/-- Errors raised by `lark.run_task` via the Lua `error` builtin. -/
inductive RunErr where
  | noTasks
  | noTask (name : String)
  deriving Repr, DecidableEq

/-- Embedding of `lark.run_task` (src/lark.lua lines 24-43), resolution portion, after the
table call shape has been unpacked.  The argument is the Lua `name` value:
`none` models nil.  `if not name then name = lark.default_task end` fires only
for nil — every string, the empty string included, is truthy in Lua.  A nil
name after substitution raises `error("no tasks to run")`; a name with no
entry in `lark.tasks` raises `error("no task named " .. name)`; otherwise the
registered body is returned (and invoked by the source). -/
def runTaskResolve {β : Type} (r : TaskReg β) (name : Option String) :
    Except RunErr β :=
  match (match name with | none => r.default_task | some s => some s) with
  | none => .error .noTasks
  | some nm =>
    match getK r.tasks nm with
    | none => .error (.noTask nm)
    | some fn => .ok fn

/-- Embedding of `RunTask` (Go main package): the CLI-side caller of `lark.run`.  It turns
an empty task string into the Lua literal `nil` (`taskLit := "nil"; if task
is nonempty, taskLit is the quoted task`), so an empty CLI task name reaches
`run_task` as nil and every other name as itself. -/
def runTaskGo {β : Type} (r : TaskReg β) (task : String) : Except RunErr β :=
  runTaskResolve r (if task = "" then none else some task)

/-! ## Execution groups — core.go

`core.groups` is a Go map from group names to `*execgroup.Group`.  The
execgroup package itself is outside the source tree; of a group's state the
claims need only its follow list (fixed at creation, `execgroup.NewGroup`) and
its recorded error slot, which is modelled from the spec below. -/

/-- A registered execution group: the follow list handed to
`execgroup.NewGroup` (as names of the groups whose pointers were collected)
and the group's recorded error slot.

Modelled from the spec: the execgroup package is not under src/.  Per the
spec, a group holds "a single recorded error slot (first-write-wins)" and
`Wait` "returns the group's recorded error (or nil)". -/
structure Group where
  follows : List String
  err : Option String
  deriving Repr, DecidableEq

/-- Constructor `execgroup.NewGroup` applied to an already-resolved follow list; a fresh
group has recorded no error. -/
def newGroup (follows : List String) : Group :=
  { follows := follows, err := none }

/-- The core's `groups` map (core.go line 24). -/
abbrev GroupMap : Type := List (String × Group)

/-- The error `LuaMakeGroup` raises through `state.ArgError`. -/
inductive GroupErr where
  | alreadyExists (name : String)
  deriving Repr, DecidableEq

/-- Embedding of `LuaMakeGroup` (core.go lines 124-187), after the `name` and `follows`
named values have been parsed and type-checked (lines 131-166; a type error
there aborts before any mutation).  First loop (lines 168-176): every
followed name missing from `c.groups` is created with `NewGroup(nil)` and
registered.  Then (lines 178-183) the name-conflict check: if `groupname` is
already a key the call fails with ArgError "group already exists" — the map
mutations made by the first loop persist.  Otherwise (line 185) the new group
is registered with the collected follow list.

`ensureGroups` is the first loop of `LuaMakeGroup`; `makeGroup` is the whole
call after argument parsing. -/
def ensureGroups (m : GroupMap) (follows : List String) : GroupMap :=
  follows.foldl
    (fun acc fname =>
      match getK acc fname with
      | some _ => acc
      | none => setK acc fname (newGroup [])) m

def makeGroup (m : GroupMap) (groupname : String) (follows : List String) :
    GroupMap × Option GroupErr :=
  let m1 := ensureGroups m follows
  match getK m1 groupname with
  | some _ => (m1, some (.alreadyExists groupname))
  | none => (setK m1 groupname (newGroup follows), none)

/-- Embedding of `LuaStartRaw`, group lookup (core.go lines 363-367): the destination group
is looked up by name and implicitly created with `NewGroup(nil)` when absent.
No error path exists here — implicit creation cannot conflict. -/
def startGroup (m : GroupMap) (groupname : String) : GroupMap × String :=
  match getK m groupname with
  | some _ => (m, groupname)
  | none => (setK m groupname (newGroup []), groupname)

/-- Embedding of `LuaWait`, name collection (core.go lines 190-200).  With no arguments the
names are the keys of `c.groups` (Go map iteration; this embedding uses the
registry's list order).  With `n ≥ 1` arguments the loop body runs
`state.CheckString(1)` for each `i`, so every collected name is the FIRST
argument, repeated `n` times. -/
def waitNames (m : GroupMap) (args : List String) : List String :=
  match args with
  | [] => m.map Prod.fst
  | a :: rest => (a :: rest).map (fun _ => a)

/-- Embedding of `LuaWait`, wait loop (core.go lines 204-211): scan the names in order; at
the first name bound in `c.groups`, wait on that group, record its result and
`break` — later names are never examined.  `Wait` on a group returns its
recorded error (modelled from the spec, see `Group`).  Names not bound in the
registry are skipped without creating a group. -/
def waitLoop (m : GroupMap) : List String → Option String
  | [] => none
  | n :: rest =>
    match getK m n with
    | some g => g.err
    | none => waitLoop m rest

/-- Embedding of `LuaWait` (core.go lines 189-220): the value of the `error` field of the
returned table, `none` when the field is absent.  (The source wraps the error
in the text "asynchronous error: %v"; the wrapper is immaterial to the claims
and elided.) -/
def luaWaitErr (m : GroupMap) (args : List String) : Option String :=
  waitLoop m (waitNames m args)

/-- The first non-nil recorded error among the named groups that exist, in
order — the result the spec ascribes to `GroupRegistry.WaitAll`.  Stated from
the spec for comparison with `luaWaitErr`. -/
def waitAllSpec (m : GroupMap) : List String → Option String
  | [] => none
  | n :: rest =>
    match getK m n with
    | some g =>
      match g.err with
      | some e => some e
      | none => waitAllSpec m rest
    | none => waitAllSpec m rest

/-- One completed work item updating the group's recorded error slot.

Modelled from the spec: the execgroup package is not under src/.  Per the
spec the slot is first-write-wins — "a group's recorded error, once set, is
never overwritten by a later error (later errors are discarded)". -/
def recordErr (slot e : Option String) : Option String :=
  match slot with
  | some e0 => some e0
  | none => e

/-- The recorded error of a group after the given work items completed, in
completion order, starting from the fresh (error-free) slot. -/
def groupErrAfter (results : List (Option String)) : Option String :=
  results.foldl recordErr none

/-- The closure `LuaStartRaw` schedules into the destination group (core.go
lines 369-375): it runs `execRaw` and returns nil when `ignore` is set,
otherwise the process error. -/
def startClosureErr (ignoreFlag : Bool) (execErr : Option String) : Option String :=
  if ignoreFlag then none else execErr

/-! ## Process execution options — core.go

`LuaExecRaw` (lines 390-513) and `LuaStartRaw` (lines 224-386) parse the same
named values from their table argument into an `ExecRawOpt`; `execRaw`
(lines 575-623) then runs the command.  Each parsing step is embedded as a
function over the relevant table fields, in the order the source reads them. -/

/-- The ArgError values raised while parsing exec/start named values. -/
inductive ArgErr where
  | notString (field : String) (tname : String)
  | conflictStdinInput
  deriving Repr, DecidableEq

/-- Parsing of the named values `stdin` then `input` (core.go lines 426-451 in
`LuaExecRaw`; lines 284-309 in `LuaStartRaw` are identical).  A present
non-string value raises a type ArgError.  A present `stdin` string sets
`opt.StdinFile`.  A present `input` string raises the conflict ArgError only
when `opt.StdinFile != ""`, else sets `opt.Input`.  The result is
`(StdinFile, Input)`; an ArgError aborts the call before `execRaw` runs, so
no process is executed on the error path. -/
def parseStdinInput (lstdin linput : LuaVal) : Except ArgErr (String × String) :=
  match lstdin, linput with
  | .lnil, .lnil => .ok ("", "")
  | .lnil, .lstr i => .ok ("", i)
  | .lnil, v => .error (.notString "input" (luaTypeName v))
  | .lstr s, .lnil => .ok (s, "")
  | .lstr s, .lstr i =>
    if s ≠ "" then .error .conflictStdinInput else .ok (s, i)
  | .lstr _, v => .error (.notString "input" (luaTypeName v))
  | v, _ => .error (.notString "stdin" (luaTypeName v))

/-- Embedding of `strings.HasPrefix`, at the character level. -/
def hasPrefixStr (s p : String) : Bool :=
  List.isPrefixOf p.data s.data

/-- Go string slicing `s[n:]`, at the character level (the embedded call
sites only slice off ASCII prefixes). -/
def dropStr (s : String) (n : Nat) : String :=
  ⟨s.data.drop n⟩

/-- Parsing of the `stdout` (or `stderr`) named string value (core.go lines
461-467 / 478-484, identically lines 319-325 / 336-342): a leading `+` is
stripped and recorded as the append flag. -/
def parseOutTarget (s : String) : String × Bool :=
  if hasPrefixStr s "+" then (dropStr s 1, true) else (s, false)

/-- The open(2) flag bits `getOutFile` assembles. -/
inductive OFlag where
  | O_WRONLY
  | O_TRUNC
  | O_CREATE
  | O_APPEND
  deriving Repr, DecidableEq

/-- What `getOutFile` resolves an output target to. -/
inductive OutFile where
  | path (name : String) (flags : List OFlag)
  | ownStdout
  | ownStderr
  | invalidFd
  deriving Repr, DecidableEq

/-- Embedding of `getOutFile` (core.go lines 625-644): a name not starting with `&` is
opened as a file with `O_WRONLY|O_TRUNC|O_CREATE`, plus `O_APPEND` when the
append flag is set — note that `O_TRUNC` is kept in the append case (`flag |=
os.O_APPEND`).  `&1` and `&2` map to the process's own stdout/stderr and any
other `&`-name is the error "invalid file descriptor". -/
def getOutFile (name : String) (a : Bool) : OutFile :=
  if ¬ hasPrefixStr name "&" then
    let flags := [OFlag.O_WRONLY, OFlag.O_TRUNC, OFlag.O_CREATE]
    let flags := if a then flags ++ [OFlag.O_APPEND] else flags
    .path name flags
  else if name = "&1" then .ownStdout
  else if name = "&2" then .ownStderr
  else .invalidFd

/-- os.OpenFile passes its flags to open(2); POSIX truncates an existing file
whenever `O_TRUNC` is among the flags, regardless of `O_APPEND`.  A target
resolved to stdout/stderr truncates nothing. -/
def opensTruncating : OutFile → Bool
  | .path _ flags => flags.contains OFlag.O_TRUNC
  | _ => false

/-- Embedding of `tableEnv` (core.go lines 515-530), over the env table's (key, value)
pairs in iteration order: every string→string pair contributes a "k=v" entry;
the first non-string pair is remembered as an error message, and a remembered
message makes the whole call fail after the iteration.  The accumulator pair
is (entries so far, first error message or "" for none). -/
def tableEnvAux : List (LuaVal × LuaVal) → List String × String → List String × String
  | [], acc => acc
  | (k, v) :: rest, (env, msg) =>
    match k, v with
    | .lstr ks, .lstr vs => tableEnvAux rest (env ++ [ks ++ "=" ++ vs], msg)
    | _, _ =>
      let msg2 :=
        if msg = "" then
          "invalid " ++ luaTypeName k ++ "-" ++ luaTypeName v ++
            " environment variable pair"
        else msg
      tableEnvAux rest (env, msg2)

/-- Embedding of `tableEnv` (core.go lines 515-530): the list of KEY=VALUE strings built
from the env table, or the recorded error. -/
def tableEnv (t : List (LuaVal × LuaVal)) : Except String (List String) :=
  match tableEnvAux t ([], "") with
  | (env, msg) => if msg = "" then .ok env else .error msg

/-- The environment the child process sees.  `execRaw` sets `cmd.Env =
opt.Env` (core.go line 586); per os/exec, a nil `Env` makes the child inherit
the invoking process's environment, and a non-nil `Env` is used as the whole
environment.  In `LuaExecRaw`/`LuaStartRaw`, `opt.Env` stays nil when the
`env` field is absent and is `tableEnv`'s result otherwise; `tableEnv` of a
table with no string pairs yields a nil slice as well, so the empty list
plays nil here. -/
def childEnv (ambient : List String) (optEnv : List String) : List String :=
  if optEnv.isEmpty then ambient else optEnv

/-- The child environment the claim expects: the ambient environment plus the
overlay entries.  Stated from the spec for comparison with `childEnv`. -/
def childEnvSpec (ambient : List String) (overlay : List String) : List String :=
  ambient ++ overlay

/-- Embedding of `lark.exec` (src/lark.lua lines 75-95), failure handling.  `rc` is the
exit status reported by `os.execute` and `ignoreFlag` the truthiness of
`args.ignore`.  With `ignore` set and a non-zero status the failure is only
logged (when verbose); with a non-zero status otherwise,
`error(string.format("exit status %d", rc))` raises and fails the enclosing
task run.  The result is the raised error, `none` when the call returns
normally (no error surfaces to the caller). -/
def larkExecErr (rc : Int) (ignoreFlag : Bool) : Option String :=
  if ignoreFlag ∧ rc ≠ 0 then none
  else if rc ≠ 0 then some ("exit status " ++ toString rc)
  else none

/-! ## Helper lemmas -/

theorem getK_ensureGroups_preserve (follows : List String) (m : GroupMap)
    (f : String) (v : Group) (h : getK m f = some v) :
    getK (ensureGroups m follows) f = some v := by
  induction follows generalizing m with
  | nil => exact h
  | cons g gs ih =>
    show getK (ensureGroups _ gs) f = some v
    cases hg : getK m g with
    | some w => simp only [ensureGroups, List.foldl_cons, hg]; exact ih m h
    | none =>
      simp only [ensureGroups, List.foldl_cons, hg]
      have hne : g ≠ f := by
        intro he
        rw [he, h] at hg
        exact Option.noConfusion hg
      exact ih (setK m g (newGroup [])) (by rw [getK_setK_other m g f _ hne]; exact h)

theorem getK_ensureGroups_isSome (follows : List String) (m : GroupMap) (x : String) :
    (getK (ensureGroups m follows) x).isSome ↔ ((getK m x).isSome ∨ x ∈ follows) := by
  induction follows generalizing m with
  | nil => simp [ensureGroups]
  | cons g gs ih =>
    cases hg : getK m g with
    | some w =>
      simp only [ensureGroups, List.foldl_cons, hg]
      rw [show List.foldl _ m gs = ensureGroups m gs from rfl]
      rw [ih m]
      constructor
      · rintro (h | h)
        · exact Or.inl h
        · exact Or.inr (List.mem_cons_of_mem g h)
      · rintro (h | h)
        · exact Or.inl h
        · rcases List.mem_cons.mp h with h | h
          · subst h; exact Or.inl (by rw [hg]; rfl)
          · exact Or.inr h
    | none =>
      simp only [ensureGroups, List.foldl_cons, hg]
      rw [show List.foldl _ (setK m g (newGroup [])) gs
            = ensureGroups (setK m g (newGroup [])) gs from rfl]
      rw [ih (setK m g (newGroup []))]
      by_cases hx : g = x
      · subst hx
        rw [getK_setK_same]
        simp
      · rw [getK_setK_other m g x _ hx]
        constructor
        · rintro (h | h)
          · exact Or.inl h
          · exact Or.inr (List.mem_cons_of_mem g h)
        · rintro (h | h)
          · exact Or.inl h
          · rcases List.mem_cons.mp h with h | h
            · exact absurd h.symm hx
            · exact Or.inr h

theorem getK_ensureGroups_new (follows : List String) (m : GroupMap) (f : String)
    (h0 : getK m f = none) (hf : f ∈ follows) :
    getK (ensureGroups m follows) f = some (newGroup []) := by
  induction follows generalizing m with
  | nil => exact absurd hf (List.not_mem_nil f)
  | cons g gs ih =>
    cases hg : getK m g with
    | some w =>
      simp only [ensureGroups, List.foldl_cons, hg]
      rcases List.mem_cons.mp hf with he | he
      · subst he; rw [h0] at hg; exact Option.noConfusion hg
      · exact ih m h0 he
    | none =>
      simp only [ensureGroups, List.foldl_cons, hg]
      by_cases he : g = f
      · subst he
        exact getK_ensureGroups_preserve gs _ g (newGroup []) (getK_setK_same m g _)
      · rcases List.mem_cons.mp hf with h2 | h2
        · exact absurd h2.symm he
        · exact ih (setK m g (newGroup []))
            (by rw [getK_setK_other m g f _ he]; exact h0) h2

/-- The explicit-creation conflict happens exactly when the name is a key of
the registry after the follows loop: at call time the name was present, or
the call's own follows list contains it. -/
theorem makeGroup_conflict_iff (m : GroupMap) (name : String) (follows : List String) :
    (makeGroup m name follows).2.isSome ↔ ((getK m name).isSome ∨ name ∈ follows) := by
  rw [← getK_ensureGroups_isSome follows m name]
  cases hm : getK (ensureGroups m follows) name with
  | some g => simp [makeGroup, hm]
  | none => simp [makeGroup, hm]

/-- A successful explicit creation registers the group under its name. -/
theorem makeGroup_ok_mem (m : GroupMap) (name : String) (follows : List String)
    (h : (makeGroup m name follows).2 = none) :
    getK (makeGroup m name follows).1 name = some (newGroup follows) := by
  cases hm : getK (ensureGroups m follows) name with
  | some g => simp [makeGroup, hm] at h
  | none => simp [makeGroup, hm, getK_setK_same]

theorem foldl_recordErr_some (l : List (Option String)) (s : String) :
    List.foldl recordErr (some s) l = some s := by
  induction l with
  | nil => rfl
  | cons x xs ih => simpa [recordErr] using ih

/-! ## Claim theorems -/

/-- A two-group registry: "a" drained without error, "b" holding recorded
error "E". -/
def c1Registry : GroupMap :=
  [("a", { follows := [], err := none }), ("b", { follows := [], err := some "E" })]

/-- C1: refuted on the code.  `wait("a", "b")` against a registry where group
"a" exists without a recorded error and group "b" exists with recorded error
"E" reports no error at all: the argument loop collects the first argument
for every position (`CheckString(1)`), and the wait loop breaks after the
first existing group, so "b" is never waited although the claim requires its
error "E" to be returned (compare `waitAllSpec`, the result the claim
ascribes to the call). -/
theorem c1_wait_first_group_only :
    luaWaitErr c1Registry ["a", "b"] = none ∧
    waitNames c1Registry ["a", "b"] = ["a", "a"] ∧
    getK c1Registry "b" = some { follows := [], err := some "E" } ∧
    waitAllSpec c1Registry ["a", "b"] = some "E" := by
  refine ⟨rfl, rfl, by decide, rfl⟩

/-- C2: refuted on the code.  With ambient environment `HOME=/root` and the
overlay table `{FOO="1"}`, `tableEnv` builds exactly the overlay entries and
`execRaw` hands them to the child as its whole environment (`cmd.Env =
opt.Env`): the ambient variable `HOME=/root`, not mentioned in the overlay,
is not visible to the child, contradicting the claimed additive merge
(`childEnvSpec`). -/
theorem c2_env_overlay_counterexample :
    tableEnv [(.lstr "FOO", .lstr "1")] = .ok ["FOO=1"] ∧
    childEnv ["HOME=/root"] ["FOO=1"] = ["FOO=1"] ∧
    childEnv ["HOME=/root"] ["FOO=1"] ≠ childEnvSpec ["HOME=/root"] ["FOO=1"] ∧
    "HOME=/root" ∉ childEnv ["HOME=/root"] ["FOO=1"] := by
  refine ⟨rfl, rfl, by decide, by decide⟩

/-- C2 amended: a non-empty environment overlay replaces the child
environment wholesale — the child sees exactly the overlay entries, and an
ambient variable not among them is not visible; only a call without an
overlay (or with an overlay contributing no entries) inherits the ambient
environment. -/
theorem c2_env_overlay_amended (ambient es : List String)
    (t : List (LuaVal × LuaVal)) (hok : tableEnv t = .ok es) (hne : es ≠ []) :
    childEnv ambient es = es ∧
    (∀ x, x ∈ ambient → x ∉ es → x ∉ childEnv ambient es) ∧
    childEnv ambient [] = ambient := by
  have hes : childEnv ambient es = es := by
    cases es with
    | nil => exact absurd rfl hne
    | cons a l => rfl
  refine ⟨hes, ?_, rfl⟩
  intro x _ hxe
  rw [hes]
  exact hxe

/-- Witness for the amended C2 at the counterexample's input. -/
theorem c2_env_overlay_amended_witness :
    childEnv ["HOME=/root"] ["FOO=1"] = ["FOO=1"] ∧
    "HOME=/root" ∉ childEnv ["HOME=/root"] ["FOO=1"] ∧
    childEnv ["HOME=/root"] [] = ["HOME=/root"] := by
  have h := c2_env_overlay_amended ["HOME=/root"] ["FOO=1"]
    [(.lstr "FOO", .lstr "1")] rfl (by decide)
  exact ⟨h.1, h.2.1 "HOME=/root" (by decide) (by decide), h.2.2⟩

/-- C3: confirmed on src/lark.lua.  For a failing command (non-zero exit
status), `lark.exec` with `ignore` set surfaces no error — the enclosing task
run does not fail — while without `ignore` it raises the exit-status error;
a succeeding command surfaces no error either way. -/
theorem c3_exec_ignore_suppresses (rc : Int) (h : rc ≠ 0) :
    larkExecErr rc true = none ∧
    larkExecErr rc false = some ("exit status " ++ toString rc) ∧
    larkExecErr 0 true = none ∧
    larkExecErr 0 false = none := by
  refine ⟨?_, ?_, rfl, rfl⟩ <;> simp [larkExecErr, h]

/-- Witness for C3 at exit status 2. -/
theorem c3_exec_ignore_suppresses_witness :
    larkExecErr 2 true = none ∧
    larkExecErr 2 false = some ("exit status " ++ toString (2 : Int)) ∧
    larkExecErr 0 true = none ∧
    larkExecErr 0 false = none :=
  c3_exec_ignore_suppresses 2 (by decide)

/-- C4: confirmed (error slot modelled from the spec, the execgroup package
being outside the source tree).  Once a group's recorded error slot holds an
error, any sequence of later completed work items leaves it unchanged; in
particular two failing start closures completing in order, the first with
error E1 and the second with error E2, leave the group's recorded error —
what every subsequent `Wait` returns — at E1. -/
theorem c4_first_error_wins (pre post : List (Option String)) (e E1 E2 : String)
    (h : groupErrAfter pre = some e) :
    groupErrAfter (pre ++ post) = some e ∧
    groupErrAfter
      [startClosureErr false (some E1), startClosureErr false (some E2)] = some E1 := by
  constructor
  · show List.foldl recordErr none (pre ++ post) = some e
    rw [List.foldl_append]
    rw [show List.foldl recordErr none pre = groupErrAfter pre from rfl, h]
    exact foldl_recordErr_some post e
  · rfl

/-- Witness for C4: first error "A", later error "B". -/
theorem c4_first_error_wins_witness :
    groupErrAfter ([some "A"] ++ [some "B"]) = some "A" ∧
    groupErrAfter
      [startClosureErr false (some "A"), startClosureErr false (some "B")] = some "A" :=
  c4_first_error_wins [some "A"] [some "B"] "A" "A" "B" rfl

/-- C5: refuted on the code as stated.  Against an empty registry,
`make_group{name="x", follows={"x"}}` fails with GroupConflict although "x"
did not already exist in the registry at call time: the follows loop creates
"x" first and the conflict check then finds it. -/
theorem c5_conflict_self_follows_counterexample :
    (makeGroup ([] : GroupMap) "x" ["x"]).2 = some (.alreadyExists "x") ∧
    getK ([] : GroupMap) "x" = none := by
  exact ⟨rfl, rfl⟩

/-- C5 amended: explicit creation fails with GroupConflict exactly when the
name is in the registry at the moment of the conflict check — that is, when
it already existed at call time or appears among the call's own follows names
(which the follows loop registers first).  In particular a second
`make_group` with the same name always fails, and the implicit creation done
by `start` for an unknown destination group has no conflict path and always
yields the group. -/
theorem c5_conflict_amended (m : GroupMap) (name : String)
    (follows follows2 : List String) :
    ((makeGroup m name follows).2.isSome ↔ ((getK m name).isSome ∨ name ∈ follows)) ∧
    ((makeGroup m name follows).2 = none →
      (makeGroup (makeGroup m name follows).1 name follows2).2.isSome) ∧
    (getK (startGroup m name).1 name).isSome := by
  refine ⟨makeGroup_conflict_iff m name follows, ?_, ?_⟩
  · intro h
    have hmem := makeGroup_ok_mem m name follows h
    rw [makeGroup_conflict_iff]
    exact Or.inl (by rw [hmem]; rfl)
  · cases hm : getK m name with
    | some g => simp [startGroup, hm]
    | none => simp [startGroup, hm, getK_setK_same]

/-- Witness for the amended C5: a fresh `make_group "x"` succeeds, a second
one conflicts; creating "x" while following a fresh "y" conflicts when "x"
already exists. -/
theorem c5_conflict_amended_witness :
    ((makeGroup ([] : GroupMap) "x" ["y"]).2 = none) ∧
    (makeGroup (makeGroup ([] : GroupMap) "x" ["y"]).1 "x" []).2.isSome ∧
    (getK (startGroup ([] : GroupMap) "z").1 "z").isSome := by
  have h := c5_conflict_amended ([] : GroupMap) "x" ["y"] []
  have hz := c5_conflict_amended ([] : GroupMap) "z" [] []
  exact ⟨rfl, h.2.1 rfl, hz.2.2⟩

/-- C6: confirmed.  Resolution through the CLI entry point (`RunTask`
converts an empty task name to the Lua literal nil before calling
`lark.run_task`): an empty or omitted name substitutes the default task name
and fails with the no-default error (`"no tasks to run"`) when no task was
ever registered; a non-empty name with no registered task fails with the
no-such-task error carrying that name; otherwise resolution returns the
registered body. -/
theorem c6_resolution_errors {β : Type} (r : TaskReg β) (s d : String) (fn : β) :
    (r.default_task = none → runTaskGo r "" = .error .noTasks) ∧
    (r.default_task = some d → runTaskGo r "" = runTaskResolve r (some d)) ∧
    (s ≠ "" → getK r.tasks s = none → runTaskGo r s = .error (.noTask s)) ∧
    (s ≠ "" → getK r.tasks s = some fn → runTaskGo r s = .ok fn) := by
  refine ⟨?_, ?_, ?_, ?_⟩
  · intro h; simp [runTaskGo, runTaskResolve, h]
  · intro h; simp [runTaskGo, runTaskResolve, h]
  · intro h1 h2; simp [runTaskGo, runTaskResolve, h1, h2]
  · intro h1 h2; simp [runTaskGo, runTaskResolve, h1, h2]

/-- Witness for C6: an empty registry rejects the empty name with the
no-default error; a one-task registry rejects a missing name and resolves the
registered one. -/
theorem c6_resolution_errors_witness :
    runTaskGo (TaskReg.mk ([] : List (String × Nat)) none) "" = .error .noTasks ∧
    runTaskGo (TaskReg.mk [("a", (5 : Nat))] (some "a")) "missing"
      = .error (.noTask "missing") ∧
    runTaskGo (TaskReg.mk [("a", (5 : Nat))] (some "a")) "a" = .ok 5 := by
  refine ⟨?_, ?_, ?_⟩
  · exact (c6_resolution_errors (TaskReg.mk ([] : List (String × Nat)) none)
      "x" "d" 0).1 rfl
  · exact (c6_resolution_errors (TaskReg.mk [("a", (5 : Nat))] (some "a"))
      "missing" "a" 5).2.2.1 (by decide) rfl
  · exact (c6_resolution_errors (TaskReg.mk [("a", (5 : Nat))] (some "a"))
      "a" "a" 5).2.2.2 (by decide) rfl

/-- C7: refuted on the code.  Registering "a" with body 1 and then again with
body 2 makes resolution return body 2: `lark.tasks[name] = fn` is a plain
table write and replaces the earlier body, so the claimed immutability fails. -/
theorem c7_reregister_counterexample :
    runTaskGo (larkTask (larkTask (TaskReg.mk ([] : List (String × Nat)) none)
      "a" 1) "a" 2) "a" = .ok 2 ∧ (2 : Nat) ≠ 1 := by
  exact ⟨rfl, by decide⟩

/-- C7 amended: task registration is last-write-wins — after Register(name,
body1) a later Register(name, body2) during the same run leaves body2 as the
body resolution returns; the first registration still fixes the default task
name. -/
theorem c7_reregister_replaces {β : Type} (r : TaskReg β) (name : String)
    (f1 f2 : β) (h : name ≠ "") :
    getK (larkTask (larkTask r name f1) name f2).tasks name = some f2 ∧
    runTaskGo (larkTask (larkTask r name f1) name f2) name = .ok f2 := by
  have hk : getK (larkTask (larkTask r name f1) name f2).tasks name = some f2 := by
    show getK (setK (setK r.tasks name f1) name f2) name = some f2
    exact getK_setK_same _ name f2
  refine ⟨hk, ?_⟩
  simp [runTaskGo, runTaskResolve, h, hk]

/-- Witness for the amended C7 at the counterexample's input. -/
theorem c7_reregister_replaces_witness :
    getK (larkTask (larkTask (TaskReg.mk ([] : List (String × Nat)) none)
      "a" 1) "a" 2).tasks "a" = some 2 ∧
    runTaskGo (larkTask (larkTask (TaskReg.mk ([] : List (String × Nat)) none)
      "a" 1) "a" 2) "a" = .ok 2 :=
  c7_reregister_replaces (TaskReg.mk [] none) "a" 1 2 (by decide)

/-- C8: the reserved tokens `&1`/`&2` do map to the process's own
stdout/stderr and an unprefixed path truncates, but the `+` prefix does not
append instead of truncating: the append flag only ORs `O_APPEND` onto
`O_WRONLY|O_TRUNC|O_CREATE`, and open(2) with `O_TRUNC` truncates the
existing file regardless of `O_APPEND`, so `stdout="+out.txt"` still destroys
out.txt's prior contents. -/
theorem c8_append_flag_truncates :
    parseOutTarget "+out.txt" = ("out.txt", true) ∧
    getOutFile "out.txt" true =
      .path "out.txt" [.O_WRONLY, .O_TRUNC, .O_CREATE, .O_APPEND] ∧
    opensTruncating (getOutFile "out.txt" true) = true ∧
    getOutFile "out.txt" false = .path "out.txt" [.O_WRONLY, .O_TRUNC, .O_CREATE] ∧
    getOutFile "&1" false = .ownStdout ∧
    getOutFile "&1" true = .ownStdout ∧
    getOutFile "&2" false = .ownStderr ∧
    getOutFile "&2" true = .ownStderr := by
  refine ⟨?_, ?_, ?_, ?_, rfl, rfl, rfl, rfl⟩ <;> rfl

/-- C9: refuted on the code as stated.  A call supplying both named values —
`stdin` as the empty string and `input` as "x" — is accepted: the conflict
check tests `opt.StdinFile != ""`, so the empty stdin path slips through and
the process runs with the literal input. -/
theorem c9_empty_stdin_counterexample :
    parseStdinInput (.lstr "") (.lstr "x") = .ok ("", "x") ∧
    LuaVal.lstr "" ≠ LuaVal.lnil := by
  exact ⟨rfl, by decide⟩

/-- C9 amended: a call supplying both `input` and `stdin` fails with the
conflict ArgumentError — aborting before any process is executed — exactly
when the stdin path is non-empty; supplying only one of the two is always
accepted. -/
theorem c9_conflict_amended (a b : String) :
    (parseStdinInput (.lstr a) (.lstr b) = .error .conflictStdinInput ↔ a ≠ "") ∧
    parseStdinInput (.lstr a) .lnil = .ok (a, "") ∧
    parseStdinInput .lnil (.lstr b) = .ok ("", b) := by
  refine ⟨?_, rfl, rfl⟩
  by_cases h : a = ""
  · subst h; simp [parseStdinInput]
  · simp [parseStdinInput, h]

/-- C10: confirmed.  Whenever `make_group` fails with GroupConflict, every
name on its follows list is registered in the resulting registry; a followed
name unknown at call time has been created (with no follows of its own) by
the loop that precedes the conflict check, so the failing call has mutated
the registry. -/
theorem c10_follows_created_on_conflict (m : GroupMap) (name f : String)
    (follows : List String) (hconf : (makeGroup m name follows).2.isSome)
    (hf : f ∈ follows) :
    (getK (makeGroup m name follows).1 f).isSome ∧
    (getK m f = none → getK (makeGroup m name follows).1 f = some (newGroup [])) := by
  cases hm : getK (ensureGroups m follows) name with
  | some g =>
    have h1 : (makeGroup m name follows).1 = ensureGroups m follows := by
      simp [makeGroup, hm]
    rw [h1]
    constructor
    · exact (getK_ensureGroups_isSome follows m f).mpr (Or.inr hf)
    · intro h0
      exact getK_ensureGroups_new follows m f h0 hf
  | none =>
    exfalso
    simp [makeGroup, hm] at hconf

/-- Witness for C10: creating "x" over a registry that already holds "x",
with fresh followed group "y" — the call conflicts, yet "y" ends up
registered as a fresh group. -/
theorem c10_follows_created_on_conflict_witness :
    (makeGroup [("x", newGroup [])] "x" ["y"]).2.isSome ∧
    (getK (makeGroup [("x", newGroup [])] "x" ["y"]).1 "y").isSome ∧
    getK (makeGroup [("x", newGroup [])] "x" ["y"]).1 "y" = some (newGroup []) := by
  have h := c10_follows_created_on_conflict [("x", newGroup [])] "x" "y" ["y"]
    (by decide) (by decide)
  exact ⟨by decide, h.1, h.2 rfl⟩

end Lark
